import Mathlib

/-!
Verification development for the commit-critic repository.

The Python sources under `src/commit_critic/` are shallowly embedded here:
Python strings are modelled as `List Char`, Python exceptions as `Except`
errors, and the JSON values produced by `json.loads` as the inductive
`JValue`.  Each definition is translated from the named source function.
-/

set_option maxRecDepth 8000

namespace CommitCritic

/-- Characters stripped by Python `str.strip()` with no argument
(ASCII whitespace; the rarer unicode space characters never occur in the
inputs the program handles). -/
def isPySpace (c : Char) : Bool :=
  c = ' ' || c = '\t' || c = '\n' || c = '\r' || c = '\x0b' || c = '\x0c'

/-- Python `s.strip()` over strings modelled as `List Char`. -/
def pyStrip (s : List Char) : List Char :=
  ((s.dropWhile isPySpace).reverse.dropWhile isPySpace).reverse

/-- Python `s.strip(chars)`: removes any of the characters occurring in
`chars` from both ends of `s` (it treats `chars` as a character set, not as
a substring). -/
def pyStripChars (s : List Char) (chars : List Char) : List Char :=
  ((s.dropWhile (fun c => chars.contains c)).reverse.dropWhile
      (fun c => chars.contains c)).reverse

/-- Worker for `splitOnList`, structurally recursive on a fuel argument
so that it reduces in the kernel.  Every step consumes at least one
character, so the fuel `splitOnList` supplies (the input length) is never
exhausted and the fuel-0 case is unreachable. -/
def splitOnListFuel (sep : List Char) : Nat → List Char → List (List Char)
  | _, [] => [[]]
  | 0, l => [l]
  | n + 1, c :: cs =>
    if sep ≠ [] ∧ sep.isPrefixOf (c :: cs) then
      [] :: splitOnListFuel sep n ((c :: cs).drop sep.length)
    else
      match splitOnListFuel sep n cs with
      | [] => [[c]]
      | p :: ps => (c :: p) :: ps

/-- Python `s.split(sep)` for a separator string `sep`: splits on every
occurrence of the full substring `sep`, keeping empty pieces.  (Python
raises for an empty separator; the program only calls this with a
non-empty one.) -/
def splitOnList (sep l : List Char) : List (List Char) :=
  splitOnListFuel sep l.length l

/-- Python `s.splitlines()`: the program's strings only contain the `\n`
line boundary, so only `\n` is modelled.  Python drops the empty piece
after a terminal newline and returns `[]` for the empty string. -/
def pySplitlines (s : List Char) : List (List Char) :=
  if s = [] then []
  else
    let parts := splitOnList ['\n'] s
    if s.getLast? = some '\n' then parts.dropLast else parts

/-- Split on every character satisfying `p`, keeping empty pieces. -/
def splitOnPred (p : Char → Bool) : List Char → List (List Char)
  | [] => [[]]
  | c :: cs =>
    if p c then [] :: splitOnPred p cs
    else
      match splitOnPred p cs with
      | [] => [[c]]
      | q :: qs => (c :: q) :: qs

/-- Python `s.split()` with no argument: splits on runs of whitespace and
returns no empty pieces. -/
def pyWords (s : List Char) : List (List Char) :=
  (splitOnPred isPySpace s).filter (fun w => w ≠ [])

/-- Python exceptions raised by the code paths modelled here. -/
inductive PyErr where
  | jsonDecodeError
  | valueError
  | typeError
  | attributeError
deriving DecidableEq

/-- JSON values as produced by `json.loads`.  Numbers are modelled as
integers: every number the program's contracts mention is an integer
score, and no claim exercises fractional numbers. -/
inductive JValue where
  | null
  | bool (b : Bool)
  | num (n : Int)
  | str (s : List Char)
  | arr (elems : List JValue)
  | obj (fields : List (List Char × JValue))

/-- JSON whitespace accepted between tokens by `json.loads`. -/
def skipWs (cs : List Char) : List Char :=
  cs.dropWhile (fun c => c = ' ' || c = '\n' || c = '\t' || c = '\r')

/-- Opening brace character. -/
def leftBrace : Char := Char.ofNat 123

/-- Closing brace character. -/
def rightBrace : Char := Char.ofNat 125

/-- Decode of a single JSON string escape (after the backslash).  The
`\uXXXX` form never occurs in any input a claim mentions and is treated
as a decode error by the model. -/
def jsonEscape (c : Char) : Option Char :=
  if c = '\"' then some '\"'
  else if c = '\\' then some '\\'
  else if c = '/' then some '/'
  else if c = 'n' then some '\n'
  else if c = 't' then some '\t'
  else if c = 'r' then some '\r'
  else if c = 'b' then some '\x08'
  else if c = 'f' then some '\x0c'
  else none

/-- Parse the remainder of a JSON string literal (the opening quote has
been consumed); returns the decoded characters and the rest of the
input. -/
def parseJsonString : List Char → Except PyErr (List Char × List Char)
  | [] => .error .jsonDecodeError
  | c :: cs =>
    if c = '\"' then .ok ([], cs)
    else if c = '\\' then
      match cs with
      | [] => .error .jsonDecodeError
      | e :: cs2 =>
        match jsonEscape e with
        | none => .error .jsonDecodeError
        | some ch =>
          match parseJsonString cs2 with
          | .error err => .error err
          | .ok (s, r) => .ok (ch :: s, r)
    else
      match parseJsonString cs with
      | .error err => .error err
      | .ok (s, r) => .ok (c :: s, r)

/-- Value of a digit run. -/
def digitsToNat (ds : List Char) : Nat :=
  ds.foldl (fun n c => n * 10 + (c.toNat - 48)) 0

mutual

/-- Recursive-descent JSON value parser modelling `json.loads`, with a
fuel argument bounding the recursion depth (`json_loads` supplies more
fuel than any input can consume, so exhaustion only ever coincides with
malformed input; every parse failure is the single Python
`json.JSONDecodeError`). -/
def parseJsonVal : Nat → List Char → Except PyErr (JValue × List Char)
  | 0, _ => .error .jsonDecodeError
  | f + 1, cs =>
    match skipWs cs with
    | [] => .error .jsonDecodeError
    | c :: rest =>
      if c = leftBrace then
        match skipWs rest with
        | [] => .error .jsonDecodeError
        | d :: r2 =>
          if d = rightBrace then .ok (.obj [], r2)
          else parseJsonMembers f (d :: r2) []
      else if c = '[' then
        match skipWs rest with
        | [] => .error .jsonDecodeError
        | d :: r2 =>
          if d = ']' then .ok (.arr [], r2)
          else parseJsonElems f (d :: r2) []
      else if c = '\"' then
        match parseJsonString rest with
        | .error err => .error err
        | .ok (s, r2) => .ok (.str s, r2)
      else if c = 't' then
        match rest with
        | 'r' :: 'u' :: 'e' :: r2 => .ok (.bool true, r2)
        | _ => .error .jsonDecodeError
      else if c = 'f' then
        match rest with
        | 'a' :: 'l' :: 's' :: 'e' :: r2 => .ok (.bool false, r2)
        | _ => .error .jsonDecodeError
      else if c = 'n' then
        match rest with
        | 'u' :: 'l' :: 'l' :: r2 => .ok (.null, r2)
        | _ => .error .jsonDecodeError
      else if c = '-' then
        let ds := rest.takeWhile Char.isDigit
        if ds = [] then .error .jsonDecodeError
        else .ok (.num (-(digitsToNat ds : Int)), rest.drop ds.length)
      else if c.isDigit then
        let ds := (c :: rest).takeWhile Char.isDigit
        .ok (.num (digitsToNat ds : Int), (c :: rest).drop ds.length)
      else .error .jsonDecodeError

/-- Members of a JSON object after the opening brace (non-empty case). -/
def parseJsonMembers : Nat → List Char → List (List Char × JValue) →
    Except PyErr (JValue × List Char)
  | 0, _, _ => .error .jsonDecodeError
  | f + 1, cs, acc =>
    match skipWs cs with
    | '\"' :: r1 =>
      match parseJsonString r1 with
      | .error err => .error err
      | .ok (key, r2) =>
        match skipWs r2 with
        | ':' :: r3 =>
          match parseJsonVal f r3 with
          | .error err => .error err
          | .ok (v, r4) =>
            match skipWs r4 with
            | ',' :: r5 => parseJsonMembers f r5 (acc ++ [(key, v)])
            | rb :: r5 =>
              if rb = rightBrace then .ok (.obj (acc ++ [(key, v)]), r5)
              else .error .jsonDecodeError
            | [] => .error .jsonDecodeError
        | _ => .error .jsonDecodeError
    | _ => .error .jsonDecodeError

/-- Elements of a JSON array after the opening bracket (non-empty case). -/
def parseJsonElems : Nat → List Char → List JValue →
    Except PyErr (JValue × List Char)
  | 0, _, _ => .error .jsonDecodeError
  | f + 1, cs, acc =>
    match parseJsonVal f cs with
    | .error err => .error err
    | .ok (v, r1) =>
      match skipWs r1 with
      | ',' :: r2 => parseJsonElems f r2 (acc ++ [v])
      | ']' :: r2 => .ok (.arr (acc ++ [v]), r2)
      | _ => .error .jsonDecodeError

end

/-- Python `json.loads`: parse one JSON value and require only whitespace
after it.  The fuel bound `2 * length + 2` exceeds the recursion depth any
input of that length can reach. -/
def json_loads (cs : List Char) : Except PyErr JValue :=
  match parseJsonVal (2 * cs.length + 2) cs with
  | .error err => .error err
  | .ok (v, rest) => if skipWs rest = [] then .ok v else .error .jsonDecodeError

/-! Data model, from `src/commit_critic/models.py`. -/

/-- The `CommitInfo` dataclass of `models.py`. -/
structure CommitInfo where
  hash : List Char
  author : List Char
  date : List Char
  message : List Char
deriving DecidableEq

/-- The `CommitCritique` dataclass of `models.py` (its declared field
types: `str` fields and an `int` score; `llm_analyze` always builds the
score with Python `int(...)`). -/
structure CommitCritique where
  hash : List Char
  message : List Char
  score : Int
  issue : List Char
  suggestion : List Char
  praise : List Char
deriving DecidableEq

/-- The `RepoStats` dataclass of `models.py`.  Python's float `avg_score`
(an exact integer sum divided by an exact integer count) is modelled as a
rational number. -/
structure RepoStats where
  total : Nat
  avg_score : ℚ
  vague_count : Nat
  decent_count : Nat
  one_word_count : Nat
  good_count : Nat
  critiques : List CommitCritique

/-! Git extractor, from `src/commit_critic/git_ops.py`. -/

/-- Outcome of the `subprocess.run` call inside `run_git`: either the git
process completed (with an exit code, stdout and stderr) or it exceeded
the 120-second timeout. -/
inductive GitOutcome where
  | completed (returncode : Int) (stdout : List Char) (stderr : List Char)
  | timedOut

/-- The exceptions that can escape `run_git`: the `RuntimeError` it raises
itself on a non-zero exit (the spec's `GitCommandError`), and the
`subprocess.TimeoutExpired` that `subprocess.run` raises on timeout, which
`run_git` does not catch. -/
inductive GitError where
  | gitCommandError (msg : List Char)
  | timeoutExpired
deriving DecidableEq

/-- Discriminator for the `GitCommandError` alternative. -/
def GitError.isCommandError : GitError → Bool
  | .gitCommandError _ => true
  | .timeoutExpired => false

/-- The function `run_git` of `git_ops.py`: runs `git` with `args` and a
120-second timeout; on non-zero exit raises
`RuntimeError(f"git \x7b' '.join(args)\x7d failed:\n\x7bresult.stderr.strip()\x7d")`,
on success returns `result.stdout.strip()`.  A timeout makes
`subprocess.run` itself raise `TimeoutExpired`, which propagates. -/
def run_git (args : List (List Char)) (outcome : GitOutcome) :
    Except GitError (List Char) :=
  match outcome with
  | .timedOut => .error .timeoutExpired
  | .completed rc _out err =>
    if rc ≠ 0 then
      .error (.gitCommandError
        ("git ".toList ++ List.intercalate [' '] args ++ " failed:\n".toList
          ++ pyStrip err))
    else .ok (pyStrip _out)

/-- The parsing part of `get_commits` in `git_ops.py`, applied to the
string `run_git` returned for the `git log` invocation.  The source sets
`sep = "%x00"` (the text of the format escape, not the NUL byte the
escape makes git emit) and computes `log.strip(sep).split(sep)`; each
block is stripped, split into lines, discarded when it has fewer than 4
lines, and otherwise turned into a `CommitInfo` (first line hash, second
author, third date, remaining lines joined as message). -/
def get_commits (log : List Char) : List CommitInfo :=
  let sep := "%x00".toList
  let blocks := splitOnList sep (pyStripChars log sep)
  blocks.filterMap (fun block =>
    let lines := pySplitlines (pyStrip block)
    if lines.length < 4 then none
    else some
      { hash := pyStrip (lines.getD 0 [])
        author := pyStrip (lines.getD 1 [])
        date := pyStrip (lines.getD 2 [])
        message := pyStrip (List.intercalate ['\n'] (lines.drop 3)) })

/-! LLM client and response parsing, from `src/commit_critic/llm.py`. -/

/-- Three backtick characters, the markdown fence marker. -/
def tripleTick : List Char := "```".toList

/-- The fence-stripping step both `llm_analyze` and `llm_write` apply to
the (already `.strip()`-ed) response text: when the text starts with three
backticks, drop its first line; when the result ends with three backticks,
drop its last line. -/
def stripFences (text : List Char) : List Char :=
  let t1 :=
    if tripleTick.isPrefixOf text then
      List.intercalate ['\n'] ((pySplitlines text).drop 1)
    else text
  if tripleTick.isSuffixOf t1 then
    List.intercalate ['\n'] ((pySplitlines t1).dropLast)
  else t1

/-- The response-parsing pipeline shared by `llm_analyze` and `llm_write`:
`text = content.strip()`, fence stripping, then `json.loads`. -/
def loadResponseJson (content : List Char) : Except PyErr JValue :=
  json_loads (stripFences (pyStrip content))

/-- Python `dict` lookup over the association list `json.loads` produced
for a JSON object; on duplicate keys the last occurrence wins, as in a
Python dict built from JSON. -/
def dictLookup : List (List Char × JValue) → List Char → Option JValue
  | [], _ => none
  | (k, v) :: rest, key =>
    match dictLookup rest key with
    | some w => some w
    | none => if k = key then some v else none

/-- Python `item.get(key, dflt)`. -/
def dictGet (fields : List (List Char × JValue)) (key : List Char)
    (dflt : JValue) : JValue :=
  (dictLookup fields key).getD dflt

/-- Python `int(s)` on a string: optional surrounding whitespace, optional
sign, then at least one digit; anything else raises `ValueError`.  (The
rarely used digit-group underscores of Python 3 are not modelled.) -/
def pyIntOfString (s : List Char) : Except PyErr Int :=
  match pyStrip s with
  | '-' :: ds =>
    if ds ≠ [] ∧ ds.all Char.isDigit then .ok (-(digitsToNat ds : Int))
    else .error .valueError
  | '+' :: ds =>
    if ds ≠ [] ∧ ds.all Char.isDigit then .ok (digitsToNat ds : Int)
    else .error .valueError
  | ds =>
    if ds ≠ [] ∧ ds.all Char.isDigit then .ok (digitsToNat ds : Int)
    else .error .valueError

/-- Python `int(v)` on a JSON value: integers pass through, booleans map
to 0/1, numeric strings are parsed, non-numeric strings raise
`ValueError`, and `null`/lists/objects raise `TypeError`. -/
def pyInt : JValue → Except PyErr Int
  | .num n => .ok n
  | .bool b => .ok (if b then 1 else 0)
  | .str s => pyIntOfString s
  | _ => .error .typeError

/-- Lookup of a field `models.py` declares as `str`: a missing key yields
the `item.get(k, "")` default `""`.  (A present value of a non-string
JSON type would be stored untyped by the dataclass; no claim exercises
that corner and the model reads it as the empty string.) -/
def getStrD (fields : List (List Char × JValue)) (key : List Char) :
    List Char :=
  match dictLookup fields key with
  | some (JValue.str s) => s
  | some _ => []
  | none => []

/-- Construction of one `CommitCritique` from a parsed batch item in
`llm_analyze`: `CommitCritique(hash=item.get("hash", ""), ...,
score=int(item.get("score", 0)), ...)`.  A non-object item makes
`item.get` raise `AttributeError`. -/
def parseCritiqueItem : JValue → Except PyErr CommitCritique
  | .obj fields =>
    match pyInt (dictGet fields "score".toList (.num 0)) with
    | .error err => .error err
    | .ok n =>
      .ok
        { hash := getStrD fields "hash".toList
          message := getStrD fields "message".toList
          score := n
          issue := getStrD fields "issue".toList
          suggestion := getStrD fields "suggestion".toList
          praise := getStrD fields "praise".toList }
  | _ => .error .attributeError

/-- The result of one `client.chat.completions.create` call for a batch:
either the call raised (any transport/API exception) or it returned
response text. -/
inductive BatchOutcome where
  | apiError
  | response (content : List Char)

/-- Worker for `chunkList`, structurally recursive on a fuel argument so
that it reduces in the kernel.  Every step drops at least one element, so
the fuel `chunkList` supplies (the input length) is never exhausted and
the fuel-0 case is unreachable. -/
def chunkListFuel : Nat → List α → Nat → List (List α)
  | _, [], _ => []
  | _, _ :: _, 0 => []
  | 0, _ :: _, _ + 1 => []
  | n + 1, x :: xs, k + 1 =>
    ((x :: xs).take (k + 1)) :: chunkListFuel n ((x :: xs).drop (k + 1)) (k + 1)

/-- The batch-slicing list comprehension in `llm_analyze`:
`[commits[i:i + batch_size] for i in range(0, len(commits), batch_size)]`.
(Python raises for a zero step; the program always passes 25.) -/
def chunkList (l : List α) (k : Nat) : List (List α) :=
  chunkListFuel l.length l k

/-- Body of the per-batch loop in `llm_analyze` for one batch, given the
API outcome for that batch: an API exception is caught and the loop
continues (zero critiques); response text is stripped, fence-stripped and
JSON-parsed, a `JSONDecodeError` is caught and the batch skipped; the
items of a parsed array are turned into critiques, where `int(...)` can
raise.  Iterating a non-array parse result mirrors Python: an empty dict
or empty string iterates nothing; a non-empty dict or string yields
strings whose `.get` raises `AttributeError`; other values are not
iterable (`TypeError`). -/
def processBatch (outcome : BatchOutcome) : Except PyErr (List CommitCritique) :=
  match outcome with
  | .apiError => .ok []
  | .response content =>
    match loadResponseJson content with
    | .error _ => .ok []
    | .ok (JValue.arr items) => items.mapM parseCritiqueItem
    | .ok (JValue.obj []) => .ok []
    | .ok (JValue.obj (_ :: _)) => .error .attributeError
    | .ok (JValue.str []) => .ok []
    | .ok (JValue.str (_ :: _)) => .error .attributeError
    | .ok _ => .error .typeError

/-- The batch loop of `llm_analyze`: process the batches in order,
concatenating each batch's critiques onto the accumulated list; an
uncaught exception from a batch propagates immediately. -/
def runBatchesFrom (oracle : Nat → BatchOutcome) :
    List (List CommitInfo) → Nat → Except PyErr (List CommitCritique)
  | [], _ => .ok []
  | _ :: bs, i =>
    match processBatch (oracle i) with
    | .error err => .error err
    | .ok cs =>
      match runBatchesFrom oracle bs (i + 1) with
      | .error err => .error err
      | .ok rest => .ok (cs ++ rest)

/-- The function `llm_analyze` of `llm.py`, with the network modelled by
an oracle giving each batch's API outcome: slice `commits` into batches of
`batch_size` and run the batch loop.  (The request payload sent for a
batch — the serialized hash-prefix/message pairs and the fixed system
prompt — does not influence the returned critiques, which are read from
the oracle's response text.) -/
def llm_analyze (commits : List CommitInfo) (batch_size : Nat)
    (oracle : Nat → BatchOutcome) : Except PyErr (List CommitCritique) :=
  runBatchesFrom oracle (chunkList commits batch_size) 0

/-- The truncation marker `llm_write` appends to an over-long diff. -/
def truncMarker : List Char := "\n\n... [diff truncated] ...".toList

/-- The diff-truncation step of `llm_write` (`max_diff_chars = 100_000`):
`if len(diff) > max_diff_chars: diff = diff[:max_diff_chars] + marker`. -/
def truncateDiff (diff : List Char) : List Char :=
  if diff.length > 100000 then diff.take 100000 ++ truncMarker
  else diff

/-- Text before the diff in the user message `llm_write` sends. -/
def writeMsgPre : List Char := "Here is the `git diff --staged`:\n```\n".toList

/-- Text after the diff in the user message `llm_write` sends. -/
def writeMsgPost : List Char := "\n```".toList

/-- The user message `llm_write` sends to the model:
`f"Here is the \x60git diff --staged\x60:\n\x60\x60\x60\n\x7bdiff\x7d\n\x60\x60\x60"`
built after the truncation step. -/
def writeUserMsg (diff : List Char) : List Char :=
  writeMsgPre ++ truncateDiff diff ++ writeMsgPost

/-- Result of the API call inside `llm_write`. -/
inductive ApiResult where
  | apiError
  | responseText (content : List Char)

/-- What `llm_write` does after sending: return the parsed JSON, or
terminate the process. -/
inductive WriteResult where
  | success (data : JValue)
  | sysExit (code : Nat)

/-- The response handling of `llm_write` in `llm.py`: an API exception is
fatal (`sys.exit(1)` after printing), the response text is stripped and
fence-stripped, and a `json.JSONDecodeError` is also fatal
(`sys.exit(1)`); otherwise the parsed JSON is returned. -/
def llm_write (r : ApiResult) : WriteResult :=
  match r with
  | .apiError => .sysExit 1
  | .responseText content =>
    match loadResponseJson content with
    | .error _ => .sysExit 1
    | .ok v => .success v

/-! Aggregator, from `cmd_analyze` in `src/commit_critic/main.py`. -/

/-- The `RepoStats(...)` construction in `cmd_analyze` (main.py lines
38–46), as a function of the critique list: `total=len(critiques)`,
`avg_score=sum(c.score for c in critiques) / len(critiques) if critiques
else 0`, and the four comprehension counts. -/
def computeStats (critiques : List CommitCritique) : RepoStats :=
  { total := critiques.length
    avg_score :=
      if critiques = [] then 0
      else ((critiques.map CommitCritique.score).sum : ℚ) /
        (critiques.length : ℚ)
    vague_count :=
      (critiques.map (fun c => if c.score < 5 then 1 else 0)).sum
    decent_count :=
      (critiques.map (fun c => if 5 ≤ c.score ∧ c.score < 7 then 1 else 0)).sum
    one_word_count :=
      (critiques.map (fun c => if (pyWords c.message).length ≤ 1 then 1 else 0)).sum
    good_count :=
      (critiques.map (fun c => if 7 ≤ c.score then 1 else 0)).sum
    critiques := critiques }

/-! Concrete sample inputs used by the witnesses and counterexamples. -/

/-- A commit record used to build concrete commit lists. -/
def cSample : CommitInfo :=
  ⟨"a1b2c3d4".toList, "Alice".toList, "2024-01-01".toList, "feat: x".toList⟩

/-- A 40-character commit hash whose first character is the digit 0. -/
def hashA : List Char := '0' :: List.replicate 39 'a'

/-- A second 40-character commit hash. -/
def hashB : List Char := List.replicate 40 'b'

/-- The exact `git log` output (as returned by `run_git`, i.e. already
`stdout.strip()`-ed) for two commits under the format
`%H%n%an%n%ai%n%B%x00`: git renders `%x00` as a NUL byte and separates
entries with a newline. -/
def sampleLog : List Char :=
  hashA ++ "\nAlice\n2024-01-01 12:00:00 +0000\nfeat: add login\n\x00\n".toList
    ++ hashB ++ "\nBob\n2024-01-02 12:00:00 +0000\nfix: correct bug\n\x00".toList

/-- A batch oracle where the second batch's API call raises and every
other batch returns the empty JSON array. -/
def oracleMidFail : Nat → BatchOutcome :=
  fun i => if i = 1 then .apiError else .response "[]".toList

/-- Five critiques with scores 1, 3, 6, 8, 9. -/
def sampleCritiques : List CommitCritique :=
  [⟨"aaaaaaaa".toList, "wip".toList, 1, "i1".toList, "s1".toList, []⟩,
   ⟨"bbbbbbbb".toList, "update stuff".toList, 3, "i2".toList, "s2".toList, []⟩,
   ⟨"cccccccc".toList, "feat: add login".toList, 6, "i3".toList, "s3".toList, []⟩,
   ⟨"dddddddd".toList, "feat(auth): add login flow".toList, 8, [], [], "p4".toList⟩,
   ⟨"eeeeeeee".toList, "fix(api): handle nulls".toList, 9, [], [], "p5".toList⟩]

/-- The single commit record the buggy `get_commits` parse produces from
`sampleLog`: the whole second commit ends up inside the message. -/
def mergedMessage : List Char :=
  "feat: add login\n\x00\n".toList ++ hashB
    ++ "\nBob\n2024-01-02 12:00:00 +0000\nfix: correct bug\n\x00".toList

/-! Helper lemmas shared by the claim theorems. -/

theorem chunkListFuel_nil (n k : Nat) : chunkListFuel n ([] : List α) k = [] := by
  cases n <;> rfl

theorem chunkListFuel_zeroK (n : Nat) (x : α) (xs : List α) :
    chunkListFuel n (x :: xs) 0 = [] := by
  cases n <;> rfl

theorem chunkListFuel_congr :
    ∀ (n : Nat) (l : List α) (k m : Nat), l.length ≤ n → l.length ≤ m →
      chunkListFuel n l k = chunkListFuel m l k := by
  intro n
  induction n with
  | zero =>
    intro l k m hn _
    have hl : l = [] := List.eq_nil_of_length_eq_zero (Nat.le_zero.mp hn)
    subst hl
    rw [chunkListFuel_nil, chunkListFuel_nil]
  | succ n ih =>
    intro l k m hn hm
    cases l with
    | nil => rw [chunkListFuel_nil, chunkListFuel_nil]
    | cons x xs =>
      cases k with
      | zero => rw [chunkListFuel_zeroK, chunkListFuel_zeroK]
      | succ k =>
        cases m with
        | zero => simp at hm
        | succ m =>
          show ((x :: xs).take (k + 1)) ::
              chunkListFuel n ((x :: xs).drop (k + 1)) (k + 1) =
            ((x :: xs).take (k + 1)) ::
              chunkListFuel m ((x :: xs).drop (k + 1)) (k + 1)
          congr 1
          apply ih
          · simp only [List.length_drop, List.length_cons] at hn ⊢
            omega
          · simp only [List.length_drop, List.length_cons] at hm ⊢
            omega

theorem chunkList_cons_step (l : List α) (k : Nat) (hl : l ≠ []) (hk : k ≠ 0) :
    chunkList l k = l.take k :: chunkList (l.drop k) k := by
  obtain ⟨x, xs, rfl⟩ := List.exists_cons_of_ne_nil hl
  obtain ⟨k', rfl⟩ := Nat.exists_eq_succ_of_ne_zero hk
  have hstep : chunkList (x :: xs) (k' + 1) =
      ((x :: xs).take (k' + 1)) ::
        chunkListFuel xs.length ((x :: xs).drop (k' + 1)) (k' + 1) := rfl
  rw [hstep]
  congr 1
  exact chunkListFuel_congr xs.length ((x :: xs).drop (k' + 1)) (k' + 1)
    (((x :: xs).drop (k' + 1)).length)
    (by simp only [List.length_drop, List.length_cons]; omega) le_rfl

theorem chunkList_nil_eq (k : Nat) : chunkList ([] : List α) k = [] := rfl

theorem chunkList_zeroK_eq (l : List α) : chunkList l 0 = [] := by
  cases l with
  | nil => rfl
  | cons x xs => exact chunkListFuel_zeroK _ _ _

theorem chunkList_join_aux (k : Nat) (hk : k ≠ 0) :
    ∀ (n : Nat) (l : List α), l.length ≤ n → (chunkList l k).flatten = l := by
  intro n
  induction n with
  | zero =>
    intro l h
    have hl : l = [] := List.eq_nil_of_length_eq_zero (Nat.le_zero.mp h)
    subst hl
    rfl
  | succ n ih =>
    intro l h
    rcases eq_or_ne l [] with rfl | hl
    · rfl
    · rw [chunkList_cons_step l k hl hk]
      have hlen : 0 < l.length := List.length_pos.mpr hl
      have hkpos : 0 < k := Nat.pos_of_ne_zero hk
      rw [List.flatten_cons,
        ih (l.drop k) (by simp only [List.length_drop]; omega)]
      exact List.take_append_drop k l

theorem chunkList_mem_le_aux :
    ∀ (n : Nat) (l : List α) (k : Nat) (b : List α),
      l.length ≤ n → b ∈ chunkList l k → b.length ≤ k := by
  intro n
  induction n with
  | zero =>
    intro l k b h hb
    have hl : l = [] := List.eq_nil_of_length_eq_zero (Nat.le_zero.mp h)
    subst hl
    simp [chunkList_nil_eq] at hb
  | succ n ih =>
    intro l k b h hb
    rcases eq_or_ne l [] with rfl | hl
    · simp [chunkList_nil_eq] at hb
    · rcases eq_or_ne k 0 with rfl | hk
      · simp [chunkList_zeroK_eq] at hb
      · rw [chunkList_cons_step l k hl hk] at hb
        rcases List.mem_cons.mp hb with hb1 | hb1
        · subst hb1
          exact List.length_take_le k l
        · have hlen : 0 < l.length := List.length_pos.mpr hl
          have hkpos : 0 < k := Nat.pos_of_ne_zero hk
          exact ih (l.drop k) k b (by simp only [List.length_drop]; omega) hb1

theorem chunkList_sizes_60 (l : List CommitInfo) (h : l.length = 60) :
    (chunkList l 25).map List.length = [25, 25, 10] := by
  have h0 : l ≠ [] := by
    intro e
    rw [e] at h
    simp at h
  have h1 : (l.drop 25).length = 35 := by simp [h]
  have h1n : l.drop 25 ≠ [] := by
    intro e
    rw [e] at h1
    simp at h1
  have h2 : ((l.drop 25).drop 25).length = 10 := by simp [h]
  have h2n : (l.drop 25).drop 25 ≠ [] := by
    intro e
    rw [e] at h2
    simp at h2
  have h3 : (((l.drop 25).drop 25).drop 25) = [] := by
    have h3l : ((((l.drop 25).drop 25).drop 25)).length = 0 := by simp [h]
    exact List.eq_nil_of_length_eq_zero h3l
  rw [chunkList_cons_step l 25 h0 (by decide),
    chunkList_cons_step _ 25 h1n (by decide),
    chunkList_cons_step _ 25 h2n (by decide), h3, chunkList_nil_eq]
  simp [List.length_take, h]

theorem processBatch_apiError : processBatch BatchOutcome.apiError = Except.ok [] :=
  rfl

theorem sum_indicator_countP {α : Type _} (p : α → Prop) [DecidablePred p] :
    ∀ l : List α,
      (l.map (fun a => if p a then (1 : Nat) else 0)).sum =
        l.countP (fun a => decide (p a)) := by
  intro l
  induction l with
  | nil => rfl
  | cons a l ih =>
    by_cases h : p a
    · simp [List.countP_cons, h, ih]
      omega
    · simp [List.countP_cons, h, ih]

/-! Claim theorems. -/

/-- C1 (code bug exhibited): on the real `git log` output for two commits
(NUL-separated, as the format `%H%n%an%n%ai%n%B%x00` produces),
`get_commits` returns a single `CommitInfo` — not one per commit — whose
hash lost its leading `0` to `str.strip("%x00")` (39 characters instead
of 40) and whose message swallows the entire second commit, because the
code splits on the literal four-character string `"%x00"` instead of the
NUL byte the format escape makes git emit. -/
theorem get_commits_nul_split_bug :
    get_commits sampleLog =
      [⟨List.replicate 39 'a', "Alice".toList,
        "2024-01-01 12:00:00 +0000".toList, mergedMessage⟩] ∧
    (get_commits sampleLog).map (fun c => c.hash.length) = [39] := by
  constructor
  · decide
  · decide

/-- C2 (amended): a non-zero git exit makes `run_git` raise a
`RuntimeError` (the spec's `GitCommandError`) whose message embeds the
stripped stderr of the tool; exceeding the 120-second timeout instead
lets `subprocess.TimeoutExpired` propagate uncaught, a different error
kind. -/
theorem run_git_error_spec :
    (∀ (args : List (List Char)) (rc : Int) (outp err : List Char), rc ≠ 0 →
      run_git args (GitOutcome.completed rc outp err) =
        Except.error (GitError.gitCommandError
          ("git ".toList ++ List.intercalate [' '] args ++ " failed:\n".toList
            ++ pyStrip err))) ∧
    (∀ args : List (List Char),
      run_git args GitOutcome.timedOut = Except.error GitError.timeoutExpired) := by
  constructor
  · intro args rc outp err h
    simp [run_git, h]
  · intro args
    rfl

/-- Witness for `run_git_error_spec` at a concrete failing invocation. -/
theorem run_git_error_spec_witness :
    run_git ["log".toList] (GitOutcome.completed 1 [] (" boom ".toList)) =
      Except.error (GitError.gitCommandError
        ("git ".toList ++ List.intercalate [' '] ["log".toList]
          ++ " failed:\n".toList ++ pyStrip (" boom ".toList))) ∧
    (1 : Int) ≠ 0 :=
  ⟨run_git_error_spec.1 ["log".toList] 1 [] (" boom ".toList) (by decide),
   by decide⟩

/-- C2 counterexample: a timed-out git subprocess does not produce the
`GitCommandError` kind at all — `subprocess.TimeoutExpired` escapes
`run_git` uncaught, so the claim that both failure modes raise the same
error kind carrying stderr is false. -/
theorem run_git_timeout_counterexample :
    run_git ["log".toList] GitOutcome.timedOut =
      Except.error GitError.timeoutExpired ∧
    GitError.isCommandError GitError.timeoutExpired = false :=
  ⟨rfl, rfl⟩

/-- C3 counterexample: a batch item whose `score` field is the
non-numeric JSON string `"high"` makes `int(item.get("score", 0))` raise
`ValueError` instead of defaulting the score to 0, so the claim's
"without raising" is false for malformed scores. -/
theorem parseCritiqueItem_malformed_score_counterexample :
    parseCritiqueItem (JValue.obj [("score".toList, JValue.str ("high".toList))]) =
      Except.error PyErr.valueError := rfl

/-- C3 (amended): missing `hash`/`message`/`issue`/`suggestion`/`praise`
fields default to the empty string and a missing `score` defaults to 0,
but a present non-numeric `score` raises `ValueError` (it is not coerced
to 0). -/
theorem parseCritiqueItem_defaults_spec :
    (parseCritiqueItem (JValue.obj []) = Except.ok ⟨[], [], 0, [], [], []⟩) ∧
    (∀ fields c, dictLookup fields ("score".toList) = none →
      parseCritiqueItem (JValue.obj fields) = Except.ok c → c.score = 0) ∧
    (∀ fields c, dictLookup fields ("hash".toList) = none →
      parseCritiqueItem (JValue.obj fields) = Except.ok c → c.hash = []) ∧
    (∀ fields c, dictLookup fields ("message".toList) = none →
      parseCritiqueItem (JValue.obj fields) = Except.ok c → c.message = []) ∧
    (∀ fields c, dictLookup fields ("issue".toList) = none →
      parseCritiqueItem (JValue.obj fields) = Except.ok c → c.issue = []) ∧
    (∀ fields c, dictLookup fields ("suggestion".toList) = none →
      parseCritiqueItem (JValue.obj fields) = Except.ok c → c.suggestion = []) ∧
    (∀ fields c, dictLookup fields ("praise".toList) = none →
      parseCritiqueItem (JValue.obj fields) = Except.ok c → c.praise = []) ∧
    (∀ fields s, dictLookup fields ("score".toList) = some (JValue.str s) →
      pyIntOfString s = Except.error PyErr.valueError →
      parseCritiqueItem (JValue.obj fields) = Except.error PyErr.valueError) := by
  refine ⟨rfl, ?_, ?_, ?_, ?_, ?_, ?_, ?_⟩
  · intro fields c h hok
    have h' : dictLookup fields (['s', 'c', 'o', 'r', 'e'] : List Char) = none := h
    simp [parseCritiqueItem, dictGet, h', pyInt] at hok
    subst hok
    rfl
  · intro fields c h hok
    have h' : dictLookup fields (['h', 'a', 's', 'h'] : List Char) = none := h
    rcases hs : pyInt (dictGet fields (['s', 'c', 'o', 'r', 'e'] : List Char)
        (JValue.num 0)) with e | n
    · simp [parseCritiqueItem, hs] at hok
    · simp [parseCritiqueItem, hs] at hok
      subst hok
      simp [getStrD, h']
  · intro fields c h hok
    have h' : dictLookup fields
        (['m', 'e', 's', 's', 'a', 'g', 'e'] : List Char) = none := h
    rcases hs : pyInt (dictGet fields (['s', 'c', 'o', 'r', 'e'] : List Char)
        (JValue.num 0)) with e | n
    · simp [parseCritiqueItem, hs] at hok
    · simp [parseCritiqueItem, hs] at hok
      subst hok
      simp [getStrD, h']
  · intro fields c h hok
    have h' : dictLookup fields (['i', 's', 's', 'u', 'e'] : List Char) = none := h
    rcases hs : pyInt (dictGet fields (['s', 'c', 'o', 'r', 'e'] : List Char)
        (JValue.num 0)) with e | n
    · simp [parseCritiqueItem, hs] at hok
    · simp [parseCritiqueItem, hs] at hok
      subst hok
      simp [getStrD, h']
  · intro fields c h hok
    have h' : dictLookup fields
        (['s', 'u', 'g', 'g', 'e', 's', 't', 'i', 'o', 'n'] : List Char) = none := h
    rcases hs : pyInt (dictGet fields (['s', 'c', 'o', 'r', 'e'] : List Char)
        (JValue.num 0)) with e | n
    · simp [parseCritiqueItem, hs] at hok
    · simp [parseCritiqueItem, hs] at hok
      subst hok
      simp [getStrD, h']
  · intro fields c h hok
    have h' : dictLookup fields
        (['p', 'r', 'a', 'i', 's', 'e'] : List Char) = none := h
    rcases hs : pyInt (dictGet fields (['s', 'c', 'o', 'r', 'e'] : List Char)
        (JValue.num 0)) with e | n
    · simp [parseCritiqueItem, hs] at hok
    · simp [parseCritiqueItem, hs] at hok
      subst hok
      simp [getStrD, h']
  · intro fields s h hval
    have h' : dictLookup fields (['s', 'c', 'o', 'r', 'e'] : List Char) =
        some (JValue.str s) := h
    simp [parseCritiqueItem, dictGet, h', pyInt, hval]

/-- Witness for `parseCritiqueItem_defaults_spec`. -/
theorem parseCritiqueItem_defaults_spec_witness :
    parseCritiqueItem (JValue.obj [("score".toList, JValue.str ("ten".toList))]) =
      Except.error PyErr.valueError ∧
    CommitCritique.score ⟨[], [], 0, "x".toList, [], []⟩ = 0 :=
  ⟨parseCritiqueItem_defaults_spec.2.2.2.2.2.2.2
      [("score".toList, JValue.str ("ten".toList))] ("ten".toList) rfl rfl,
   parseCritiqueItem_defaults_spec.2.1
      [("issue".toList, JValue.str ("x".toList))]
      ⟨[], [], 0, "x".toList, [], []⟩ rfl rfl⟩

/-- C4: `llm_analyze` slices its commit list into consecutive chunks of
at most `batch_size` in input order (their concatenation is the input;
60 commits at batch size 25 give chunk sizes `[25, 25, 10]`), and when
one chunk's API call fails while the others process cleanly, the failed
chunk contributes zero critiques and the result is exactly the
concatenation of the successful chunks' critiques, with no exception
escaping `llm_analyze`. -/
theorem llm_analyze_batching_spec :
    (∀ (commits : List CommitInfo) (k : Nat), k ≠ 0 →
      (chunkList commits k).flatten = commits) ∧
    (∀ (commits : List CommitInfo) (k : Nat) (b : List CommitInfo),
      b ∈ chunkList commits k → b.length ≤ k) ∧
    (∀ commits : List CommitInfo, commits.length = 60 →
      (chunkList commits 25).map List.length = [25, 25, 10]) ∧
    (∀ (commits : List CommitInfo) (oracle : Nat → BatchOutcome)
      (c0 c2 : List CommitCritique), commits.length = 60 →
      processBatch (oracle 0) = Except.ok c0 →
      oracle 1 = BatchOutcome.apiError →
      processBatch (oracle 2) = Except.ok c2 →
      llm_analyze commits 25 oracle = Except.ok (c0 ++ c2)) := by
  refine ⟨?_, ?_, ?_, ?_⟩
  · intro commits k hk
    exact chunkList_join_aux k hk commits.length commits le_rfl
  · intro commits k b hb
    exact chunkList_mem_le_aux commits.length commits k b le_rfl hb
  · intro commits h
    exact chunkList_sizes_60 commits h
  · intro commits oracle c0 c2 h60 h0 h1 h2
    have hsz := chunkList_sizes_60 commits h60
    obtain ⟨b0, b1, b2, hb⟩ :
        ∃ b0 b1 b2, chunkList commits 25 = [b0, b1, b2] := by
      rcases hcl : chunkList commits 25 with _ | ⟨x0, _ | ⟨x1, _ | ⟨x2, _ | _⟩⟩⟩ <;>
        rw [hcl] at hsz <;> simp at hsz
      exact ⟨x0, x1, x2, rfl⟩
    unfold llm_analyze
    rw [hb]
    simp [runBatchesFrom, h0, h1, h2, processBatch_apiError]

/-- Witness for `llm_analyze_batching_spec` on 60 concrete commits with
the middle batch failing. -/
theorem llm_analyze_batching_spec_witness :
    (chunkList (List.replicate 60 cSample) 25).map List.length = [25, 25, 10] ∧
    llm_analyze (List.replicate 60 cSample) 25 oracleMidFail = Except.ok [] ∧
    (chunkList [cSample] 3).flatten = [cSample] ∧
    [cSample].length ≤ 3 := by
  refine ⟨llm_analyze_batching_spec.2.2.1 (List.replicate 60 cSample) (by simp),
    ?_,
    llm_analyze_batching_spec.1 [cSample] 3 (by decide),
    llm_analyze_batching_spec.2.1 [cSample] 3 [cSample] (by decide)⟩
  have h := llm_analyze_batching_spec.2.2.2 (List.replicate 60 cSample)
    oracleMidFail [] [] (by simp) rfl rfl rfl
  simpa using h

/-- C5: the `RepoStats` built by `cmd_analyze` is a pure function of the
critique list with `total` the length, `avg_score` the arithmetic mean of
the scores (0 on the empty list, with no division-by-zero failure), and
the four counts the sizes of the corresponding subsets; on scores
`[1, 3, 6, 8, 9]` it yields total 5, average 27/5 = 5.4, 2 vague, 1
decent and 2 good. -/
theorem computeStats_spec :
    (∀ cs : List CommitCritique,
      (computeStats cs).total = cs.length ∧
      (computeStats cs).vague_count =
        cs.countP (fun c => decide (c.score < 5)) ∧
      (computeStats cs).decent_count =
        cs.countP (fun c => decide (5 ≤ c.score ∧ c.score < 7)) ∧
      (computeStats cs).one_word_count =
        cs.countP (fun c => decide ((pyWords c.message).length ≤ 1)) ∧
      (computeStats cs).good_count =
        cs.countP (fun c => decide (7 ≤ c.score))) ∧
    (∀ cs : List CommitCritique, cs ≠ [] →
      (computeStats cs).avg_score =
        ((cs.map CommitCritique.score).sum : ℚ) / (cs.length : ℚ)) ∧
    (computeStats [] = ⟨0, 0, 0, 0, 0, 0, []⟩) ∧
    ((computeStats sampleCritiques).total = 5 ∧
      (computeStats sampleCritiques).avg_score = 27 / 5 ∧
      (computeStats sampleCritiques).vague_count = 2 ∧
      (computeStats sampleCritiques).decent_count = 1 ∧
      (computeStats sampleCritiques).good_count = 2) := by
  refine ⟨?_, ?_, rfl, rfl, ?_, rfl, rfl, rfl⟩
  · intro cs
    refine ⟨rfl, ?_, ?_, ?_, ?_⟩
    · exact sum_indicator_countP (fun c => c.score < 5) cs
    · exact sum_indicator_countP (fun c => 5 ≤ c.score ∧ c.score < 7) cs
    · exact sum_indicator_countP (fun c => (pyWords c.message).length ≤ 1) cs
    · exact sum_indicator_countP (fun c => 7 ≤ c.score) cs
  · intro cs h
    simp [computeStats, h]
  · norm_num [computeStats, sampleCritiques]
    exact List.cons_ne_nil _ _

/-- Witness for `computeStats_spec` on the five sample critiques. -/
theorem computeStats_spec_witness :
    (computeStats sampleCritiques).avg_score =
      ((sampleCritiques.map CommitCritique.score).sum : ℚ) /
        (sampleCritiques.length : ℚ) :=
  computeStats_spec.2.1 sampleCritiques (by decide)

/-- C6: the response parser strips one leading fence line (including a
language tag) and one trailing fence line and parses the rest as JSON:
the fenced example parses to the object, unfenced valid JSON parses
unchanged (the strip step is the identity when no fence is present), and
text that is not valid JSON after fence-stripping yields the parse
failure for the caller to handle. -/
theorem responseParse_spec :
    loadResponseJson ("```json\n\x7b\"a\":1\x7d\n```".toList) =
      Except.ok (JValue.obj [("a".toList, JValue.num 1)]) ∧
    loadResponseJson ("\x7b\"a\":1\x7d".toList) =
      Except.ok (JValue.obj [("a".toList, JValue.num 1)]) ∧
    (∀ t : List Char, tripleTick.isPrefixOf (pyStrip t) = false →
      tripleTick.isSuffixOf (pyStrip t) = false →
      loadResponseJson t = json_loads (pyStrip t)) ∧
    (∀ t : List Char,
      json_loads (stripFences (pyStrip t)) = Except.error PyErr.jsonDecodeError →
      loadResponseJson t = Except.error PyErr.jsonDecodeError) := by
  refine ⟨rfl, rfl, ?_, ?_⟩
  · intro t h1 h2
    unfold loadResponseJson stripFences
    rw [h1]
    simp only [Bool.false_eq_true, if_false]
    rw [h2]
    simp only [Bool.false_eq_true, if_false]
  · intro t h
    exact h

/-- Witness for `responseParse_spec`. -/
theorem responseParse_spec_witness :
    loadResponseJson ("null".toList) = json_loads (pyStrip ("null".toList)) ∧
    loadResponseJson ("nope".toList) = Except.error PyErr.jsonDecodeError :=
  ⟨responseParse_spec.2.2.1 ("null".toList) rfl rfl,
   responseParse_spec.2.2.2 ("nope".toList) rfl⟩

/-- C7: a diff longer than 100,000 characters is cut to exactly its
first 100,000 characters with the truncation marker appended, and the
user message transmitted to the model embeds exactly that truncated
text. -/
theorem llm_write_truncation_spec :
    ∀ diff : List Char, 100000 < diff.length →
      truncateDiff diff = diff.take 100000 ++ truncMarker ∧
      writeUserMsg diff =
        writeMsgPre ++ (diff.take 100000 ++ truncMarker) ++ writeMsgPost := by
  intro d h
  have ht : truncateDiff d = d.take 100000 ++ truncMarker := by
    simp [truncateDiff, h]
  exact ⟨ht, by rw [writeUserMsg, ht, List.append_assoc]⟩

/-- Witness for `llm_write_truncation_spec` on a 150,000-character diff. -/
theorem llm_write_truncation_spec_witness :
    100000 < (List.replicate 150000 'a').length ∧
    truncateDiff (List.replicate 150000 'a') =
      List.replicate 100000 'a' ++ truncMarker := by
  have hlen : 100000 < (List.replicate 150000 'a').length := by
    rw [List.length_replicate]
    norm_num
  refine ⟨hlen, ?_⟩
  have h := (llm_write_truncation_spec (List.replicate 150000 'a') hlen).1
  rw [h, List.take_replicate]
  norm_num

/-- C10: the truncation threshold is strict — a diff of at most 100,000
characters (in particular exactly 100,000) is sent unmodified, with no
marker appended. -/
theorem llm_write_truncation_strict_spec :
    ∀ diff : List Char, diff.length ≤ 100000 →
      truncateDiff diff = diff ∧
      writeUserMsg diff = writeMsgPre ++ diff ++ writeMsgPost := by
  intro d h
  have hn : ¬ (100000 < d.length) := by omega
  have ht : truncateDiff d = d := by simp [truncateDiff, hn]
  exact ⟨ht, by rw [writeUserMsg, ht]⟩

/-- Witness for `llm_write_truncation_strict_spec` on a diff of exactly
100,000 characters. -/
theorem llm_write_truncation_strict_spec_witness :
    (List.replicate 100000 'a').length ≤ 100000 ∧
    truncateDiff (List.replicate 100000 'a') = List.replicate 100000 'a' := by
  have hlen : (List.replicate 100000 'a').length ≤ 100000 := by
    rw [List.length_replicate]
  exact ⟨hlen, (llm_write_truncation_strict_spec (List.replicate 100000 'a') hlen).1⟩

/-- C8: `llm_write` is all-or-nothing — every invocation either returns
the parsed suggestion or terminates the process with exit code 1; an API
error is fatal, a JSON-parse failure is fatal, and a successful parse
returns exactly the parsed value (never a partial or empty stand-in). -/
theorem llm_write_all_or_nothing_spec :
    (∀ r : ApiResult,
      (∃ v, llm_write r = WriteResult.success v) ∨
        llm_write r = WriteResult.sysExit 1) ∧
    (llm_write ApiResult.apiError = WriteResult.sysExit 1) ∧
    (∀ content : List Char,
      loadResponseJson content = Except.error PyErr.jsonDecodeError →
      llm_write (ApiResult.responseText content) = WriteResult.sysExit 1) ∧
    (∀ (content : List Char) (v : JValue),
      loadResponseJson content = Except.ok v →
      llm_write (ApiResult.responseText content) = WriteResult.success v) := by
  refine ⟨?_, rfl, ?_, ?_⟩
  · intro r
    cases r with
    | apiError => exact Or.inr rfl
    | responseText content =>
      rcases h : loadResponseJson content with e | v
      · exact Or.inr (by simp [llm_write, h])
      · exact Or.inl ⟨v, by simp [llm_write, h]⟩
  · intro content h
    simp [llm_write, h]
  · intro content v h
    simp [llm_write, h]

/-- Witness for `llm_write_all_or_nothing_spec`. -/
theorem llm_write_all_or_nothing_spec_witness :
    llm_write (ApiResult.responseText ("nonsense".toList)) = WriteResult.sysExit 1 ∧
    llm_write (ApiResult.responseText ("1".toList)) =
      WriteResult.success (JValue.num 1) :=
  ⟨llm_write_all_or_nothing_spec.2.2.1 ("nonsense".toList) rfl,
   llm_write_all_or_nothing_spec.2.2.2 ("1".toList) (JValue.num 1) rfl⟩

/-- C9: on an empty commit list `llm_analyze` produces zero batches —
so no API request is made at all — and returns the empty critique list
without error. -/
theorem llm_analyze_empty_spec :
    ∀ (batch_size : Nat) (oracle : Nat → BatchOutcome),
      llm_analyze [] batch_size oracle = Except.ok [] ∧
      chunkList ([] : List CommitInfo) batch_size = [] := by
  intro k oracle
  exact ⟨rfl, rfl⟩

end CommitCritic
